import Mathlib

/-!
Verification of the StateDB RESP-command parser and its Python FFI driver.

Bytes are modelled as natural numbers (the byte values); byte buffers as
`List Nat`.  The Python driver (`src/parser.py`) is embedded as an event-trace
semantics; the native parsing core (declared in `parser.py` and described by
the design document) is modelled from the specification, since its source is
not part of the repository snapshot.
-/

namespace StateDB

/-- Bytes of a string literal, used to state concrete buffer contents. -/
def strBytes (s : String) : List Nat :=
  s.data.map Char.toNat

/-- ASCII decimal digit test, bytes 48..57. -/
def isDigit (b : Nat) : Bool :=
  48 ≤ b && b ≤ 57

/-- Modelled from the spec: reading an unsigned decimal number byte-by-byte
(the number tokens of `ReadArrayHeader` and `ReadElementHeader` in §4.1);
accumulates the maximal run of leading digit bytes. -/
def readNatAux : List Nat → Nat → Nat × List Nat
  | [], acc => (acc, [])
  | b :: rest, acc =>
    if isDigit b then readNatAux rest (acc * 10 + (b - 48)) else (acc, b :: rest)

/-- Modelled from the spec: an unsigned decimal count/length token.  At least
one digit byte is required; a non-digit first byte (including a minus sign)
is a syntax error, reported as `none` (§4.1: "Negative or non-numeric counts
are syntax errors"). -/
def readNat : List Nat → Option (Nat × List Nat)
  | [] => none
  | b :: rest =>
    if isDigit b then some (readNatAux (b :: rest) 0) else none

/-- Error text of the decoder when a declared bulk length exceeds the bytes
remaining in the buffer (§4.1 `ReadElementBody`). -/
def truncMsg : String :=
  "truncated buffer: declared bulk length exceeds remaining bytes"

/-- Modelled from the spec (§4.1, states `ReadElementHeader` and
`ReadElementBody` iterated N times): each element is framed
`$<L>\r\n<L raw bytes>\r\n`.  The length check happens before any body byte
is consumed, so a buffer holding fewer than L remaining bytes fails with the
truncation error without any body read.  Returns the decoded elements and the
unconsumed rest of the buffer. -/
def decodeElems : Nat → List Nat → Except String (List (List Nat) × List Nat)
  | 0, rest => Except.ok ([], rest)
  | n + 1, buf =>
    match buf with
    | 36 :: afterDollar =>
      match readNat afterDollar with
      | none => Except.error "expected decimal bulk length after $"
      | some (len, afterLen) =>
        match afterLen with
        | 13 :: 10 :: body =>
          if len ≤ body.length then
            match body.drop len with
            | 13 :: 10 :: afterBody =>
              match decodeElems n afterBody with
              | Except.ok (es, rest) => Except.ok (body.take len :: es, rest)
              | Except.error e => Except.error e
            | _ => Except.error "missing CRLF after bulk body"
          else Except.error truncMsg
        | _ => Except.error "missing CRLF after bulk length"
    | _ => Except.error "expected $ bulk string marker"

/-- Modelled from the spec (§4.1): the full decoder state machine
`Start → ReadArrayHeader → (ReadElementHeader → ReadElementBody) × N →
Complete`, over a buffer framed `*<N>\r\n` followed by N elements.  Trailing
bytes after the N elements are ignored.  Produces the ordered sequence of
decoded byte strings or the first error. -/
def decodeCommand (buf : List Nat) : Except String (List (List Nat)) :=
  match buf with
  | 42 :: afterStar =>
    match readNat afterStar with
    | none => Except.error "expected decimal array count after *"
    | some (n, afterCount) =>
      match afterCount with
      | 13 :: 10 :: elems =>
        match decodeElems n elems with
        | Except.ok (es, _) => Except.ok es
        | Except.error e => Except.error e
      | _ => Except.error "missing CRLF after array count"
  | _ => Except.error "expected * array marker"

/-- Modelled from the spec (§4.3): JSON string escaping for direct embedding
of payload bytes; quote (34) and backslash (92) are escaped. -/
def jsonEscape (s : List Nat) : List Nat :=
  s.flatMap fun b => if b = 34 || b = 92 then [92, b] else [b]

/-- Modelled from the spec (§4.3): a JSON string literal around a payload. -/
def jsonString (s : List Nat) : List Nat :=
  34 :: (jsonEscape s ++ [34])

/-- Comma-separated concatenation of JSON fragments (byte 44 is a comma). -/
def sepComma : List (List Nat) → List Nat
  | [] => []
  | [x] => x
  | x :: y :: rest => x ++ 44 :: sepComma (y :: rest)

/-- Modelled from the spec (§4.3 Encoder): the JSON document
with fixed shape and key order: a `command` field holding the verb and an
`args` field holding the ordered remaining elements.  Byte 123 is the opening
brace, 125 the closing brace, 91/93 the brackets. -/
def jsonDoc (verb : List Nat) (args : List (List Nat)) : List Nat :=
  123 :: (strBytes "\"command\":" ++ jsonString verb ++
    strBytes ",\"args\":" ++ (91 :: (sepComma (args.map jsonString) ++ [93, 125])))

/-- The C `ParseResult` struct of the native library, as declared in
`src/parser.py` lines 10-17: a success flag and two nullable C string
pointers, modelled as optional byte strings. -/
structure ParseResult where
  success : Bool
  err : Option (List Nat)
  json_result : Option (List Nat)
  deriving DecidableEq, Repr

/-- Modelled from the spec (§4.4, §4.2): `parse(buffer) → ResultEnvelope`.
Decode, validate non-emptiness, encode; on success the envelope carries JSON
text and no error text, on failure error text and no JSON text.  (Catastrophic
allocation failure, which the spec surfaces as a null handle, has no
counterpart in a pure model; the model always constructs the envelope.) -/
def parse_command (buf : List Nat) : ParseResult :=
  match decodeCommand buf with
  | Except.error e => { success := false, err := some (strBytes e), json_result := none }
  | Except.ok [] => { success := false, err := some (strBytes "empty command"), json_result := none }
  | Except.ok (verb :: args) =>
    { success := true, err := none, json_result := some (jsonDoc verb args) }

/-- Wire encoding of one bulk string element, `$<L>\r\n<payload>\r\n`
(§4.1; byte 36 is the dollar marker, 13/10 are CR/LF). -/
def encNat (n : Nat) : List Nat :=
  if n = 0 then [48] else (Nat.digits 10 n).reverse.map (fun d => d + 48)

/-- Wire framing of one element: `$<L>\r\n<payload>\r\n`. -/
def encElem (s : List Nat) : List Nat :=
  36 :: (encNat s.length ++ (13 :: 10 :: (s ++ [13, 10])))

/-- Wire framing of a whole command: `*<N>\r\n` then the elements
(§4.1; byte 42 is the star marker). -/
def encWire (cmd : List (List Nat)) : List Nat :=
  42 :: (encNat cmd.length ++ (13 :: 10 :: (cmd.map encElem).flatten))

/-- Exactly-one-payload shape of an envelope: success with JSON text and no
error text, or failure with error text and no JSON text (§3 ParseOutcome). -/
def exactOnePayload (e : ParseResult) : Bool :=
  (e.success && e.json_result.isSome && e.err.isNone) ||
    (!e.success && e.err.isSome && e.json_result.isNone)

/-! ### The Python driver, `src/parser.py` `main` (lines 87-129)

The driver is embedded as a deterministic event trace.  Its environment is
  * what the `parse_command` FFI call does: raises an exception (the call
    never returns), returns a null pointer, or returns a pointer to an
    envelope — `Option (Option ParseResult)`;
  * whether a later `bytes.decode` raises `UnicodeDecodeError` on given
    bytes, and whether `json.loads` raises on given bytes — two Boolean
    oracles, since the driver model need not commit to the Python decoder.
-/

/-- One observable event of a `main` run. -/
inductive Ev where
  /-- the `parse_command` FFI call (line 96) -/
  | callParse
  /-- the `raise Exception("Zig function returned a null pointer.")` (line 99) -/
  | raiseNullPtr
  /-- reading `result_struct.success` (lines 105, 107) -/
  | readSuccessField
  /-- reading `result_struct.json_result` (line 109) -/
  | readJsonField
  /-- reading `result_struct.err` (line 117) -/
  | readErrField
  /-- calling `.decode` on a `None` field (an `AttributeError`) -/
  | decodeNoneFault
  /-- an exception raised inside the `try` body after field access
      (`UnicodeDecodeError` or a `json.loads` failure) -/
  | raiseBody
  /-- the `except Exception` handler running (lines 120-121) -/
  | catchException
  /-- the `free_parse_result` FFI call in `finally` (line 128) -/
  | callFree
  deriving DecidableEq, Repr

/-- The `try` body of `main` (lines 93-118): the events it produces, whether
an exception escapes it, and whether `result_ptr` is non-null afterwards.
`parseRet = none` models the FFI call itself raising (so `result_ptr` keeps
its initial `None`); `some none` models a returned null pointer; `some (some
env)` a returned envelope. -/
def tryBody (parseRet : Option (Option ParseResult))
    (utf8Fails : List Nat → Bool) (loadsFails : List Nat → Bool) :
    List Ev × Bool × Bool :=
  match parseRet with
  | none => ([Ev.callParse], true, false)
  | some none => ([Ev.callParse, Ev.raiseNullPtr], true, false)
  | some (some env) =>
    if env.success then
      match env.json_result with
      | none =>
        ([Ev.callParse, Ev.readSuccessField, Ev.readJsonField, Ev.decodeNoneFault],
          true, true)
      | some js =>
        if utf8Fails js || loadsFails js then
          ([Ev.callParse, Ev.readSuccessField, Ev.readJsonField, Ev.raiseBody],
            true, true)
        else
          ([Ev.callParse, Ev.readSuccessField, Ev.readJsonField], false, true)
    else
      match env.err with
      | none =>
        ([Ev.callParse, Ev.readSuccessField, Ev.readErrField, Ev.decodeNoneFault],
          true, true)
      | some eb =>
        if utf8Fails eb then
          ([Ev.callParse, Ev.readSuccessField, Ev.readErrField, Ev.raiseBody],
            true, true)
        else
          ([Ev.callParse, Ev.readSuccessField, Ev.readErrField], false, true)

/-- The whole of `main` (lines 87-129): the `try` body, then the
`except Exception` handler if an exception escaped the body, then the
`finally` block, which calls `free_parse_result` iff `result_ptr` is truthy
(a null ctypes pointer is falsy). -/
def mainTrace (parseRet : Option (Option ParseResult))
    (utf8Fails : List Nat → Bool) (loadsFails : List Nat → Bool) : List Ev :=
  match tryBody parseRet utf8Fails loadsFails with
  | (evs, exc, ptrNonNull) =>
    evs ++ (if exc then [Ev.catchException] else []) ++
      (if ptrNonNull then [Ev.callFree] else [])

/-! ### The declared ctypes boundary of `src/parser.py` (lines 10-17, 75-83)

The ctypes type expressions appearing in the source, as data, and the
language-neutral ABI description of §6 of the design document, as a second
set of definitions to be compared against them (a refinement check). -/

/-- ctypes type expressions used in `src/parser.py`. -/
inductive CTy where
  | c_bool
  | c_char_p
  | ptr_ParseResult
  | void
  deriving DecidableEq, Repr

/-- The list `ParseResult._fields_` exactly as declared in `src/parser.py`
lines 10-17, in order. -/
def ParseResult_fields : List (String × CTy) :=
  [("success", CTy.c_bool), ("err", CTy.c_char_p), ("json_result", CTy.c_char_p)]

/-- The declared `parse_command_func.argtypes` (line 77). -/
def parse_command_argtypes : List CTy := [CTy.c_char_p]

/-- The declared `parse_command_func.restype` (line 78). -/
def parse_command_restype : CTy := CTy.ptr_ParseResult

/-- The declared `free_parse_result_func.argtypes` (line 82). -/
def free_parse_result_argtypes : List CTy := [CTy.ptr_ParseResult]

/-- The declared `free_parse_result_func.restype` (line 83: `None`, i.e. void). -/
def free_parse_result_restype : CTy := CTy.void

/-- The abstract types of the spec §6 ABI description. -/
inductive SpecTy where
  | boolean
  | optionalText
  | byteSeq
  | envelopeHandle
  | nothing
  deriving DecidableEq, Repr

/-- Modelled from the spec §6: the `ResultEnvelope` record
`{ success: boolean; err: optional text; json_result: optional text }`. -/
def spec_envelope_fields : List (String × SpecTy) :=
  [("success", SpecTy.boolean), ("err", SpecTy.optionalText),
    ("json_result", SpecTy.optionalText)]

/-- Modelled from the spec §6: `parse(input: byte sequence) → pointer/handle
to ResultEnvelope`. -/
def spec_parse_sig : List SpecTy × SpecTy :=
  ([SpecTy.byteSeq], SpecTy.envelopeHandle)

/-- Modelled from the spec §6: `release(handle to ResultEnvelope) → nothing`. -/
def spec_release_sig : List SpecTy × SpecTy :=
  ([SpecTy.envelopeHandle], SpecTy.nothing)

/-- Correspondence between a ctypes type and a spec ABI type: `c_bool`
realises a boolean, a nullable `c_char_p` realises an optional text and also
carries an input byte sequence, a `POINTER(ParseResult)` realises the
envelope handle, and a `None` restype realises "nothing". -/
def tyMatches : CTy → SpecTy → Bool
  | CTy.c_bool, SpecTy.boolean => true
  | CTy.c_char_p, SpecTy.optionalText => true
  | CTy.c_char_p, SpecTy.byteSeq => true
  | CTy.ptr_ParseResult, SpecTy.envelopeHandle => true
  | CTy.void, SpecTy.nothing => true
  | _, _ => false

/-- A declared ctypes signature realises a spec signature when the argument
lists correspond pointwise (same arity) and the return types correspond. -/
def sigMatches (c : List CTy × CTy) (s : List SpecTy × SpecTy) : Bool :=
  c.1.length = s.1.length &&
    (List.zip c.1 s.1).all (fun p => tyMatches p.1 p.2) && tyMatches c.2 s.2

/-! ### The input marshaling of the FFI call

`parse_command_func.argtypes = [ctypes.c_char_p]` (line 77) makes ctypes pass
the Python `bytes` object as a C string pointer; the native side declares
`input: [*:0]const u8` (line 75), i.e. reads up to the first NUL byte.  The
byte sequence actually delivered to the parser is therefore the longest
zero-free prefix of the Python buffer. -/

/-- The bytes the native parser receives for a Python `bytes` argument
marshalled as `c_char_p`: the prefix up to (excluding) the first zero byte. -/
def cStringDelivered (b : List Nat) : List Nat :=
  b.takeWhile (fun x => x ≠ 0)

/-- The observable outcome of the FFI call on a Python buffer: the parse of
the delivered C string. -/
def ffiParse (b : List Nat) : ParseResult :=
  parse_command (cStringDelivered b)

/-! ### Round trip of the decimal number tokens -/

/-- A digit run followed by a non-digit (or nothing) is accumulated exactly. -/
lemma readNatAux_append (ds : List Nat) (hds : ∀ d ∈ ds, isDigit d = true)
    (rest : List Nat) (hr : ∀ c, rest.head? = some c → isDigit c = false)
    (acc : Nat) :
    readNatAux (ds ++ rest) acc =
      (List.foldl (fun a d => a * 10 + (d - 48)) acc ds, rest) := by
  induction ds generalizing acc with
  | nil =>
    cases rest with
    | nil => rfl
    | cons c t =>
      have hc : isDigit c = false := hr c rfl
      simp [readNatAux, hc]
  | cons d ds ih =>
    have hd : isDigit d = true := hds d (List.mem_cons_self d ds)
    simp only [List.cons_append, readNatAux, hd, if_true, List.foldl_cons]
    exact ih (fun x hx => hds x (List.mem_cons_of_mem d hx)) _

/-- Every byte of an encoded number is an ASCII digit. -/
lemma encNat_digits (n : Nat) : ∀ d ∈ encNat n, isDigit d = true := by
  intro d hd
  unfold encNat at hd
  by_cases h : n = 0
  · simp [h] at hd
    simp [hd, isDigit]
  · simp only [h, if_false, List.mem_map, List.mem_reverse] at hd
    obtain ⟨e, he, rfl⟩ := hd
    have : e < 10 := Nat.digits_lt_base (by norm_num) he
    simp only [isDigit, Bool.and_eq_true, decide_eq_true_eq]
    omega

/-- The encoding of a number is never empty. -/
lemma encNat_ne_nil (n : Nat) : encNat n ≠ [] := by
  unfold encNat
  by_cases h : n = 0
  · simp [h]
  · simp only [h, if_false, ne_eq, List.map_eq_nil_iff, List.reverse_eq_nil_iff]
    exact Nat.digits_ne_nil_iff_ne_zero.mpr h

/-- Folding big-endian digit accumulation equals `Nat.ofDigits` on the
little-endian digit list. -/
lemma foldr_ofDigits (l : List Nat) :
    List.foldr (fun e a => a * 10 + e) 0 l = Nat.ofDigits 10 l := by
  induction l with
  | nil => simp [Nat.ofDigits_nil]
  | cons d t ih =>
    simp only [List.foldr_cons, ih, Nat.ofDigits_cons]
    ring

/-- Accumulating the encoded digits of `n` recovers `n`. -/
lemma foldl_encNat (n : Nat) :
    List.foldl (fun a d => a * 10 + (d - 48)) 0 (encNat n) = n := by
  unfold encNat
  by_cases h : n = 0
  · simp [h]
  · simp only [h, if_false, List.foldl_map, Nat.add_sub_cancel, List.foldl_reverse]
    rw [foldr_ofDigits, Nat.ofDigits_digits]

/-- Round trip of the number token: reading an encoded number followed by a
non-digit rest yields the number and the rest. -/
lemma readNat_enc (n : Nat) (rest : List Nat)
    (hr : ∀ c, rest.head? = some c → isDigit c = false) :
    readNat (encNat n ++ rest) = some (n, rest) := by
  rcases he : encNat n with _ | ⟨d, ds⟩
  · exact absurd he (encNat_ne_nil n)
  · have hds : ∀ x ∈ d :: ds, isDigit x = true := by
      intro x hx
      exact encNat_digits n x (he ▸ hx)
    have hd : isDigit d = true := hds d (List.mem_cons_self d ds)
    simp only [List.cons_append, readNat, hd, if_true]
    rw [← List.cons_append, readNatAux_append (d :: ds) hds rest hr 0, ← he,
      foldl_encNat]

/-! ### Round trip of the element decoder -/

/-- Decoding one encoded element consumes exactly its frame and prepends its
payload to whatever the remaining elements decode to. -/
lemma decodeElems_encElem (s : List Nat) (n : Nat) (t : List Nat) :
    decodeElems (n + 1) (encElem s ++ t) =
      Except.map (fun p => (s :: p.1, p.2)) (decodeElems n t) := by
  have hbuf : encElem s ++ t =
      36 :: (encNat s.length ++ (13 :: 10 :: (s ++ (13 :: 10 :: t)))) := by
    simp [encElem, List.append_assoc]
  rw [hbuf]
  have hnum : readNat (encNat s.length ++ (13 :: 10 :: (s ++ (13 :: 10 :: t)))) =
      some (s.length, 13 :: 10 :: (s ++ (13 :: 10 :: t))) := by
    apply readNat_enc
    intro c hc
    simp only [List.head?_cons, Option.some.injEq] at hc
    subst hc
    decide
  simp only [decodeElems, hnum]
  have hlen : s.length ≤ (s ++ (13 :: 10 :: t)).length := by
    simp
  rw [if_pos hlen, List.drop_left s (13 :: 10 :: t), List.take_left s (13 :: 10 :: t)]
  cases h : decodeElems n t with
  | ok p => cases p; simp [h, Except.map]
  | error e => simp [h, Except.map]

/-- Decoding a run of encoded elements with surplus count budget consumes the
run and continues on the rest with the remaining budget. -/
lemma decodeElems_append (elems : List (List Nat)) (k : Nat) (rest : List Nat) :
    decodeElems (elems.length + k) ((elems.map encElem).flatten ++ rest) =
      Except.map (fun p => (elems ++ p.1, p.2)) (decodeElems k rest) := by
  induction elems with
  | nil =>
    simp only [List.length_nil, Nat.zero_add, List.map_nil, List.flatten_nil,
      List.nil_append]
    cases h : decodeElems k rest with
    | ok p => cases p; simp [Except.map]
    | error e => simp [Except.map]
  | cons s tl ih =>
    have hc : (tl.length + 1) + k = (tl.length + k) + 1 := by omega
    simp only [List.length_cons, List.map_cons, List.flatten_cons,
      List.append_assoc, hc]
    rw [decodeElems_encElem s (tl.length + k) ((tl.map encElem).flatten ++ rest), ih]
    cases h : decodeElems k rest with
    | ok p => cases p; simp [h, Except.map]
    | error e => simp [h, Except.map]

/-- Decoding the full wire encoding of a non-empty command recovers it. -/
lemma decodeCommand_encWire (cmd : List (List Nat)) :
    decodeCommand (encWire cmd) = Except.ok cmd := by
  have hnum : readNat (encNat cmd.length ++ (13 :: 10 :: (cmd.map encElem).flatten)) =
      some (cmd.length, 13 :: 10 :: (cmd.map encElem).flatten) := by
    apply readNat_enc
    intro c hc
    simp only [List.head?_cons, Option.some.injEq] at hc
    subst hc
    decide
  have helems : decodeElems cmd.length (cmd.map encElem).flatten =
      Except.ok (cmd, []) := by
    have := decodeElems_append cmd 0 []
    simpa [decodeElems, Except.map] using this
  simp only [encWire, decodeCommand, hnum, helems]

/-- C1: every envelope produced by `parse` carries exactly one of the two
payloads — JSON text and no error text when the success flag is true, error
text and no JSON text when it is false; never both, never neither. -/
theorem parse_command_exactly_one_payload (buf : List Nat) :
    exactOnePayload (parse_command buf) = true := by
  unfold parse_command
  cases h : decodeCommand buf with
  | error e => simp [exactOnePayload]
  | ok l =>
    cases l with
    | nil => simp [exactOnePayload]
    | cons v args => simp [exactOnePayload]

/-- Witness for C1 at the PING command buffer. -/
theorem parse_command_exactly_one_payload_witness :
    exactOnePayload (parse_command (strBytes "*1\r\n$4\r\nPING\r\n")) = true :=
  parse_command_exactly_one_payload (strBytes "*1\r\n$4\r\nPING\r\n")

/-- C4: the declared ctypes boundary matches the ABI description — the
`ParseResult` struct fields are exactly a boolean `success`, an optional text
`err` and an optional text `json_result` in that order, `parse_command` takes
one byte-sequence argument and returns a handle to that record, and
`free_parse_result` takes that handle and returns nothing. -/
theorem abi_signatures_match :
    ParseResult_fields.map Prod.fst = spec_envelope_fields.map Prod.fst ∧
    ParseResult_fields.length = spec_envelope_fields.length ∧
    (List.zip (ParseResult_fields.map Prod.snd)
      (spec_envelope_fields.map Prod.snd)).all (fun p => tyMatches p.1 p.2) = true ∧
    sigMatches (parse_command_argtypes, parse_command_restype) spec_parse_sig = true ∧
    sigMatches (free_parse_result_argtypes, free_parse_result_restype)
      spec_release_sig = true := by
  decide

/-- C6: parsing the exact driver buffer
`*3\r\n$3\r\nSET\r\n$5\r\nmykey\r\n$7\r\nmyvalue\r\n` yields a success
envelope whose JSON text is `{"command":"SET","args":["mykey","myvalue"]}`. -/
theorem parse_set_mykey_myvalue :
    parse_command (strBytes "*3\r\n$3\r\nSET\r\n$5\r\nmykey\r\n$7\r\nmyvalue\r\n") =
      { success := true, err := none,
        json_result :=
          some (strBytes "\x7b\"command\":\"SET\",\"args\":[\"mykey\",\"myvalue\"]\x7d") } := by
  decide

/-- C8: parsing `*0\r\n` — a syntactically valid zero-element array — yields
a failure envelope carrying the "empty command" error text and no JSON. -/
theorem parse_empty_array :
    parse_command (strBytes "*0\r\n") =
      { success := false, err := some (strBytes "empty command"),
        json_result := none } := by
  decide

/-- C7: for every well-formed wire input `*N\r\n($L\r\n<L bytes>\r\n){N}`
with printable-ASCII payloads and N ≥ 1 (shape `verb :: args`), decoding
recovers all N elements byte-for-byte in wire order, and the pipeline
succeeds with the JSON document built from element 0 as the command and the
remaining N-1 elements as the args. -/
theorem resp_round_trip (verb : List Nat) (args : List (List Nat))
    (_hprint : ∀ s ∈ verb :: args, ∀ b ∈ s, 32 ≤ b ∧ b ≤ 126) :
    decodeCommand (encWire (verb :: args)) = Except.ok (verb :: args) ∧
    parse_command (encWire (verb :: args)) =
      { success := true, err := none, json_result := some (jsonDoc verb args) } ∧
    (verb :: args).length - 1 = args.length := by
  refine ⟨decodeCommand_encWire (verb :: args), ?_, by simp⟩
  unfold parse_command
  rw [decodeCommand_encWire]

/-- Witness for C7 at the SET/mykey/myvalue command. -/
theorem resp_round_trip_witness :
    (∀ s ∈ [strBytes "SET", strBytes "mykey", strBytes "myvalue"],
      ∀ b ∈ s, 32 ≤ b ∧ b ≤ 126) ∧
    parse_command (encWire [strBytes "SET", strBytes "mykey", strBytes "myvalue"]) =
      { success := true, err := none,
        json_result := some (jsonDoc (strBytes "SET")
          [strBytes "mykey", strBytes "myvalue"]) } :=
  ⟨by decide,
    (resp_round_trip (strBytes "SET") [strBytes "mykey", strBytes "myvalue"]
      (by decide)).2.1⟩

/-- The family of buffers whose decode reaches a bulk-string header declaring
length `L` with only `rest` left after the header: an array header declaring
`good.length + 1 + m` elements, the `good` elements well-formed, then
`$<L>\r\n` followed by the remaining bytes `rest`. -/
def truncBuffer (good : List (List Nat)) (m L : Nat) (rest : List Nat) : List Nat :=
  42 :: (encNat (good.length + 1 + m) ++ (13 :: 10 ::
    ((good.map encElem).flatten ++ (36 :: (encNat L ++ (13 :: 10 :: rest))))))

/-- C9: whenever a declared bulk length `L` exceeds the bytes remaining in
the buffer, the parse fails with the truncation error (success is false) —
uniformly in the content of the insufficient remainder, so no byte beyond
the buffer influences the outcome and no body byte is consumed. -/
theorem truncation_rejected (good : List (List Nat)) (m L : Nat)
    (rest : List Nat) (h : rest.length < L) :
    decodeCommand (truncBuffer good m L rest) = Except.error truncMsg ∧
    parse_command (truncBuffer good m L rest) =
      { success := false, err := some (strBytes truncMsg), json_result := none } := by
  have hnumN : readNat (encNat (good.length + 1 + m) ++ (13 :: 10 ::
      ((good.map encElem).flatten ++ (36 :: (encNat L ++ (13 :: 10 :: rest)))))) =
      some (good.length + 1 + m, 13 :: 10 ::
        ((good.map encElem).flatten ++ (36 :: (encNat L ++ (13 :: 10 :: rest))))) := by
    apply readNat_enc
    intro c hc
    simp only [List.head?_cons, Option.some.injEq] at hc
    subst hc
    decide
  have hnumL : readNat (encNat L ++ (13 :: 10 :: rest)) = some (L, 13 :: 10 :: rest) := by
    apply readNat_enc
    intro c hc
    simp only [List.head?_cons, Option.some.injEq] at hc
    subst hc
    decide
  have hbad : decodeElems (m + 1) (36 :: (encNat L ++ (13 :: 10 :: rest))) =
      Except.error truncMsg := by
    simp only [decodeElems, hnumL]
    rw [if_neg (by omega)]
  have hN : good.length + 1 + m = good.length + (m + 1) := by omega
  have hdec : decodeCommand (truncBuffer good m L rest) = Except.error truncMsg := by
    simp only [truncBuffer, decodeCommand, hnumN]
    rw [hN, decodeElems_append good (m + 1), hbad]
    simp [Except.map]
  refine ⟨hdec, ?_⟩
  unfold parse_command
  rw [hdec]

/-- Witness for C9: a header declaring seven body bytes with only two bytes
remaining. -/
theorem truncation_rejected_witness :
    ([104, 105] : List Nat).length < 7 ∧
    parse_command (truncBuffer [] 0 7 [104, 105]) =
      { success := false, err := some (strBytes truncMsg), json_result := none } :=
  ⟨by decide, (truncation_rejected [] 0 7 [104, 105] (by decide)).2⟩

/-- C2: on every execution of the driver, `free_parse_result` is called
exactly once when `parse_command` returned a non-null pointer — on every exit
path, including the exception paths — and zero times when it returned null
(or when the call itself raised); in particular it is never called twice. -/
theorem free_called_exactly_once (parseRet : Option (Option ParseResult))
    (u l : List Nat → Bool) :
    (mainTrace parseRet u l).count Ev.callFree =
      match parseRet with
      | some (some _) => 1
      | _ => 0 := by
  rcases parseRet with _ | _ | ⟨s, e, j⟩
  · rfl
  · rfl
  · cases s
    · cases e with
      | none => rfl
      | some eb => cases hu : u eb <;> simp [mainTrace, tryBody, hu]
    · cases j with
      | none => rfl
      | some js => cases hu : u js || l js <;> simp [mainTrace, tryBody, hu]

/-- Witness for C2 at a concrete success envelope and oracles. -/
theorem free_called_exactly_once_witness :
    (mainTrace (some (some ⟨true, none, some [123]⟩))
      (fun _ => false) (fun _ => false)).count Ev.callFree = 1 :=
  free_called_exactly_once (some (some ⟨true, none, some [123]⟩))
    (fun _ => false) (fun _ => false)

/-- C3: the driver reads `json_result` only when it has observed a true
success flag and reads `err` only when the flag is false, so when the
envelope satisfies the exactly-one-payload invariant, no `.decode` of an
absent (null) string field is ever reached. -/
theorem driver_field_reads_guarded (parseRet : Option (Option ParseResult))
    (u l : List Nat → Bool)
    (hinv : ∀ env, parseRet = some (some env) → exactOnePayload env = true) :
    Ev.decodeNoneFault ∉ mainTrace parseRet u l ∧
    (Ev.readJsonField ∈ mainTrace parseRet u l →
      ∃ env, parseRet = some (some env) ∧ env.success = true ∧
        Ev.readSuccessField ∈ mainTrace parseRet u l) ∧
    (Ev.readErrField ∈ mainTrace parseRet u l →
      ∃ env, parseRet = some (some env) ∧ env.success = false ∧
        Ev.readSuccessField ∈ mainTrace parseRet u l) := by
  rcases parseRet with _ | _ | ⟨s, e, j⟩
  · refine ⟨by simp [mainTrace, tryBody], ?_, ?_⟩ <;> intro hmem <;>
      simp [mainTrace, tryBody] at hmem
  · refine ⟨by simp [mainTrace, tryBody], ?_, ?_⟩ <;> intro hmem <;>
      simp [mainTrace, tryBody] at hmem
  · have hex : exactOnePayload ⟨s, e, j⟩ = true := hinv ⟨s, e, j⟩ rfl
    cases s
    · rcases e with _ | eb
      · exact absurd hex (by simp [exactOnePayload])
      · rcases j with _ | js
        · cases hu : u eb <;> refine ⟨?_, ?_, ?_⟩
          · simp [mainTrace, tryBody, hu]
          · intro hmem
            exact absurd hmem (by simp [mainTrace, tryBody, hu])
          · intro hmem
            exact ⟨⟨false, some eb, none⟩, rfl, rfl,
              by simp [mainTrace, tryBody, hu]⟩
          · simp [mainTrace, tryBody, hu]
          · intro hmem
            exact absurd hmem (by simp [mainTrace, tryBody, hu])
          · intro hmem
            exact ⟨⟨false, some eb, none⟩, rfl, rfl,
              by simp [mainTrace, tryBody, hu]⟩
        · exact absurd hex (by simp [exactOnePayload])
    · rcases j with _ | js
      · exact absurd hex (by simp [exactOnePayload])
      · rcases e with _ | eb
        · cases hu : u js || l js <;> refine ⟨?_, ?_, ?_⟩
          · simp [mainTrace, tryBody, hu]
          · intro hmem
            exact ⟨⟨true, none, some js⟩, rfl, rfl,
              by simp [mainTrace, tryBody, hu]⟩
          · intro hmem
            exact absurd hmem (by simp [mainTrace, tryBody, hu])
          · simp [mainTrace, tryBody, hu]
          · intro hmem
            exact ⟨⟨true, none, some js⟩, rfl, rfl,
              by simp [mainTrace, tryBody, hu]⟩
          · intro hmem
            exact absurd hmem (by simp [mainTrace, tryBody, hu])
        · exact absurd hex (by simp [exactOnePayload])

/-- Witness for C3 at a concrete failure envelope satisfying the invariant. -/
theorem driver_field_reads_guarded_witness :
    (∀ env, (some (some (⟨false, some [101], none⟩ : ParseResult)) :
        Option (Option ParseResult)) = some (some env) →
      exactOnePayload env = true) ∧
    Ev.decodeNoneFault ∉ mainTrace
      (some (some (⟨false, some [101], none⟩ : ParseResult)))
      (fun _ => false) (fun _ => false) :=
  ⟨by intro env heq; cases heq; decide,
    (driver_field_reads_guarded
      (some (some (⟨false, some [101], none⟩ : ParseResult)))
      (fun _ => false) (fun _ => false)
      (by intro env heq; cases heq; decide)).1⟩

/-- C5: when `parse_command` returns a null handle, the driver raises and
reports the error without reading any envelope field and without calling
`free_parse_result` on the null handle. -/
theorem null_handle_fatal (u l : List Nat → Bool) :
    mainTrace (some none) u l =
      [Ev.callParse, Ev.raiseNullPtr, Ev.catchException] ∧
    Ev.raiseNullPtr ∈ mainTrace (some none) u l ∧
    Ev.catchException ∈ mainTrace (some none) u l ∧
    Ev.readSuccessField ∉ mainTrace (some none) u l ∧
    Ev.readJsonField ∉ mainTrace (some none) u l ∧
    Ev.readErrField ∉ mainTrace (some none) u l ∧
    (mainTrace (some none) u l).count Ev.callFree = 0 := by
  refine ⟨rfl, ?_, ?_, ?_, ?_, ?_, rfl⟩ <;> simp [mainTrace, tryBody]

/-- Witness for C5 at concrete oracles. -/
theorem null_handle_fatal_witness :
    mainTrace (some none) (fun _ => false) (fun _ => false) =
      [Ev.callParse, Ev.raiseNullPtr, Ev.catchException] :=
  (null_handle_fatal (fun _ => false) (fun _ => false)).1

/-- C10: the wrapper marshals the input as a NUL-terminated C string, so the
native side receives exactly the prefix up to the first zero byte: any two
Python buffers agreeing on that prefix produce identical parse calls and
results, and a payload containing byte 0 is never delivered intact. -/
theorem c_char_p_marshalling :
    (∀ b1 b2 : List Nat,
      b1.takeWhile (fun x => x ≠ 0) = b2.takeWhile (fun x => x ≠ 0) →
        cStringDelivered b1 = cStringDelivered b2 ∧ ffiParse b1 = ffiParse b2) ∧
    (∀ b : List Nat, 0 ∈ b → cStringDelivered b ≠ b) := by
  constructor
  · intro b1 b2 h
    have hd : cStringDelivered b1 = cStringDelivered b2 := h
    exact ⟨hd, congrArg parse_command hd⟩
  · intro b hb heq
    have h0 : (0 : Nat) ∈ b.takeWhile (fun x => x ≠ 0) := by
      unfold cStringDelivered at heq
      rw [heq]
      exact hb
    have := List.mem_takeWhile_imp h0
    simp at this

/-- Witness for C10: two buffers differing only after the first zero byte,
and a buffer whose payload holds byte 0. -/
theorem c_char_p_marshalling_witness :
    (([65, 0, 66] : List Nat).takeWhile (fun x => x ≠ 0) =
      ([65, 0, 67] : List Nat).takeWhile (fun x => x ≠ 0)) ∧
    ffiParse [65, 0, 66] = ffiParse [65, 0, 67] ∧
    (0 : Nat) ∈ ([65, 0, 66] : List Nat) ∧
    cStringDelivered [65, 0, 66] ≠ [65, 0, 66] :=
  ⟨by decide,
    (c_char_p_marshalling.1 [65, 0, 66] [65, 0, 67] (by decide)).2,
    by decide,
    c_char_p_marshalling.2 [65, 0, 66] (by decide)⟩

end StateDB
